import Mathlib

/-!
Verification development for the pyclarity-lims client-side XML object
mapping layer.  The definitions below are a shallow embedding of the
descriptor / projection / entity code in `genologics/descriptors.py` and
`pyclarity_lims/entities.py`; the theorems settle the specification
claims against that embedding.
-/

set_option linter.unusedVariables false

/-! ## XML document model

`xml.etree.ElementTree` elements: a tag, an ordered attribute mapping,
optional text, and an ordered list of children. -/

inductive Element where
  | mk : String → List (String × String) → Option String → List Element → Element

def Element.tag : Element → String
  | .mk t _ _ _ => t

def Element.attrib : Element → List (String × String)
  | .mk _ a _ _ => a

def Element.text : Element → Option String
  | .mk _ _ x _ => x

def Element.children : Element → List Element
  | .mk _ _ _ c => c

instance : Inhabited Element := ⟨Element.mk "" [] none []⟩

/-- Python dict lookup on an insertion-ordered association list (first match). -/
def alistGet {α : Type} (l : List (String × α)) (k : String) : Option α :=
  match l with
  | [] => none
  | (a, b) :: t => if a = k then some b else alistGet t k

/-- Python dict assignment: replace the value in place if the key exists
(Python dicts keep the original insertion position on overwrite),
otherwise append at the end. -/
def alistSet {α : Type} (l : List (String × α)) (k : String) (v : α) : List (String × α) :=
  match l with
  | [] => [(k, v)]
  | (a, b) :: t => if a = k then (a, v) :: t else (a, b) :: alistSet t k v

/-- Python dict deletion of a present key (first = only occurrence). -/
def alistDel {α : Type} (l : List (String × α)) (k : String) : List (String × α) :=
  match l with
  | [] => []
  | (a, b) :: t => if a = k then t else (a, b) :: alistDel t k

/-- Embedding of `get_sub_node`: the first child with the given tag. -/
def findTag (cs : List Element) (t : String) : Option Element :=
  match cs with
  | [] => none
  | c :: rest => if c.tag = t then some c else findTag rest t

/-- Index of the first child with the given tag. -/
def findTagIdx (cs : List Element) (t : String) : Option Nat :=
  match cs with
  | [] => none
  | c :: rest => if c.tag = t then some 0 else (findTagIdx rest t).map (· + 1)

/-- Indices (into the parent's child list) of the children with a given tag,
starting the count at `i`. -/
def tagIdxsFrom (cs : List Element) (t : String) (i : Nat) : List Nat :=
  match cs with
  | [] => []
  | c :: rest =>
      if c.tag = t then i :: tagIdxsFrom rest t (i + 1) else tagIdxsFrom rest t (i + 1)

def tagIdxs (cs : List Element) (t : String) : List Nat := tagIdxsFrom cs t 0

/-- Python `list.insert` (non-negative index): insert before position `i`,
appending when `i` is beyond the end. -/
def pyInsert {α : Type} (l : List α) (i : Nat) (a : α) : List α :=
  match l, i with
  | l, 0 => a :: l
  | [], _ + 1 => [a]
  | x :: xs, n + 1 => x :: pyInsert xs n a

/-! ## Python scalar values and decimal encoding

Python-level values flowing through the descriptors (the `float` and
`date` constructors carry their string form; their internal arithmetic is
outside the modeled fragment). -/

inductive PyVal where
  | none
  | str (s : String)
  | int (n : Int)
  | float (r : String)
  | bool (b : Bool)
  | date (iso : String)
deriving DecidableEq, Repr

/-- Exception kinds raised by the embedded code. -/
inductive PyErr where
  | valueError
  | keyError
  | typeError
  | attributeError
  | assertionError
  | notImplementedError
deriving DecidableEq, Repr

/-- Outcome of a Python statement sequence: an optional uncaught exception
together with the (possibly partially mutated) state it left behind. -/
structure PyResult (σ : Type) where
  err : Option PyErr
  state : σ

def digitChar (d : Nat) : Char := Char.ofNat (48 + d)

def digitVal (c : Char) : Option Nat :=
  if 48 ≤ c.toNat ∧ c.toNat ≤ 57 then some (c.toNat - 48) else none

def parseNatAux : List Char → Nat → Option Nat
  | [], acc => some acc
  | c :: cs, acc =>
      match digitVal c with
      | some d => parseNatAux cs (10 * acc + d)
      | none => none

/-- Decimal digit-string to `Nat` (empty input rejected). -/
def parseNatDigits (cs : List Char) : Option Nat :=
  match cs with
  | [] => none
  | _ => parseNatAux cs 0

/-- Embedding of Python `int(text)` on the sign-and-digits fragment the
library produces (whitespace and underscore forms are out of scope). -/
def pyIntParse (s : String) : Option Int :=
  match s.data with
  | [] => none
  | c :: cs =>
      if c = '-' then (parseNatDigits cs).map (fun v => -(v : Int))
      else (parseNatDigits (c :: cs)).map (fun v => (v : Int))

/-- Little-endian decimal digits, fuel-driven so the kernel can evaluate it. -/
def natDigitsRevAux : Nat → Nat → List Nat
  | 0, _ => []
  | fuel + 1, n => if n = 0 then [] else n % 10 :: natDigitsRevAux fuel (n / 10)

def natDigitsRev (n : Nat) : List Nat := natDigitsRevAux n n

/-- Embedding of Python `str(n)` for a natural number. -/
def pyStrOfNat (n : Nat) : String :=
  if n = 0 then "0" else String.mk ((natDigitsRev n).reverse.map digitChar)

/-- Embedding of Python `str(i)` for an integer. -/
def pyStrOfInt (i : Int) : String :=
  if i < 0 then "-" ++ pyStrOfNat i.natAbs else pyStrOfNat i.natAbs

/-- Embedding of Python `str(value)` on the modeled value shapes. -/
def pyStr (v : PyVal) : String :=
  match v with
  | .none => "None"
  | .str s => s
  | .int n => pyStrOfInt n
  | .float r => r
  | .bool b => cond b "True" "False"
  | .date iso => iso

/-- ASCII lowercasing, embedding `str.lower()` on the tag vocabulary used here. -/
def pyLower (s : String) : String := String.mk (s.data.map Char.toLower)

/-! ## Scalar descriptors (`descriptors.py`)

`TagDescriptor.get_node` / `StringDescriptor` / `IntegerDescriptor`,
operating on the root of a fetched instance (`instance.get()` is a no-op
once the root is loaded, see the entity model below). -/

/-- Embedding of `TagDescriptor.get_node`: the first child carrying the
tag, or the root itself when the descriptor has no tag (`if self.tag:`
is false for `None` and for the empty string; both are `none` here). -/
def getNodeOfTag (tag : Option String) (root : Element) : Option Element :=
  match tag with
  | some t => findTag root.children t
  | none => some root

/-- Embedding of `StringDescriptor.__get__`: the backing node's text.
An absent node and an absent text both surface as Python `None`. -/
def stringDescGet (tag : Option String) (root : Element) : Option String :=
  match getNodeOfTag tag root with
  | none => none
  | some node => node.text

def setText (e : Element) (s : String) : Element :=
  match e with
  | .mk t a _ c => .mk t a (some s) c

/-- Child-list mutation performed by `StringDescriptor.__set__`: set the
text of the first child with the tag, creating and appending a fresh
element when no child matches. -/
def setTextAtTag (cs : List Element) (t : String) (s : String) : List Element :=
  match cs with
  | [] => [Element.mk t [] (some s) []]
  | c :: rest => if c.tag = t then setText c s :: rest else c :: setTextAtTag rest t s

/-- Embedding of `StringDescriptor.__set__`: `node.text = str(value)`,
where a `None` tag means the entity's own root element. -/
def stringDescSet (tag : Option String) (root : Element) (v : PyVal) : Element :=
  match tag, root with
  | none, .mk t a _ c => .mk t a (some (pyStr v)) c
  | some tg, .mk t a x c => .mk t a x (setTextAtTag c tg (pyStr v))

/-- Embedding of `IntegerDescriptor.__get__`: `int(text)` of the string
read, `None` when the node or text is absent, `ValueError` on a
non-numeric text. -/
def integerDescGet (tag : Option String) (root : Element) : Except PyErr (Option Int) :=
  match stringDescGet tag root with
  | none => .ok none
  | some t =>
      match pyIntParse t with
      | some n => .ok (some n)
      | none => .error .valueError

/-! ## Nesting (`Nestable.rootnode`) -/

/-- Embedding of `Nestable.rootnode`: walk the nesting path from the
current root, creating and appending each missing intermediate element;
returns the updated document together with the located backing subtree. -/
def rootnodeResolve (e : Element) : List String → Element × Element
  | [] => (e, e)
  | k :: ks =>
      match findTagIdx e.children k with
      | some i =>
          let r := rootnodeResolve (e.children.getD i default) ks
          (Element.mk e.tag e.attrib e.text (e.children.set i r.fst), r.snd)
      | none =>
          let r := rootnodeResolve (Element.mk k [] none []) ks
          (Element.mk e.tag e.attrib e.text (e.children ++ [r.fst]), r.snd)

/-- Whether every intermediate element of the nesting path is present. -/
def hasChain (e : Element) : List String → Bool
  | [] => true
  | k :: ks =>
      match findTagIdx e.children k with
      | some i => hasChain (e.children.getD i default) ks
      | none => false

/-- Texts of the children carrying a tag, in document order
(the loop body of `StringListDescriptor.__get__`). -/
def textsOfTag (cs : List Element) (t : String) : List (Option String) :=
  match cs with
  | [] => []
  | c :: rest => if c.tag = t then c.text :: textsOfTag rest t else textsOfTag rest t

/-- Embedding of `StringListDescriptor.__get__` on a fetched instance:
resolves the nesting path (mutating the document) and reads the matching
children's texts; returns the value together with the updated document. -/
def stringListDescGet (t : String) (nesting : List String) (root : Element) :
    List (Option String) × Element :=
  let r := rootnodeResolve root nesting
  (textsOfTag r.snd.children t, r.fst)

/-- Document used by the end-to-end integer scenario:
`<test-entry><count>32</count></test-entry>`. -/
def c8Doc : Element :=
  Element.mk "test-entry" [] none [Element.mk "count" [] (some "32") []]

/-! ## UdfDictionary (`descriptors.py`)

The dictionary projection over `udf:field` elements.  It is embedded at
`nesting=None` (so `rootnode(instance)` is `instance.root`) and, for the
element bookkeeping, at `udt=False` (`_update_elems` non-UDT branch); the
`_udt` flag logic itself (`get_udt` / `set_udt`) is embedded for all flag
values. -/

def udfFieldTag : String := "\x7bhttp://pyclarity_lims.com/ri/userdefined\x7dfield"

def udfTypeTag : String := "\x7bhttp://pyclarity_lims.com/ri/userdefined\x7dtype"

/-- The `_udt` attribute of a `UdfDictionary`: Python `False` (declared
without UDT support), `True` (declared with UDT support, wrapper name not
yet seen), or the wrapper's recorded name string. -/
inductive UdtFlag where
  | off
  | on
  | name (s : String)
deriving DecidableEq, Repr

/-- Python truthiness of the `_udt` attribute (`False` and the empty
string are falsy). -/
def udtTruthy : UdtFlag → Bool
  | .off => false
  | .on => true
  | .name s => if s = "" then false else true

/-- State of a `UdfDictionary` over an entity instance: the live document
root, the Python-dict contents (insertion-ordered), the cached indices
(into `root.children`) of the backing field elements, and the UDT flag. -/
structure UdfState where
  root : Element
  entries : List (String × PyVal)
  elems : List Nat
  udt : UdtFlag

/-- Embedding of `UdfDictionary._update_elems` (non-UDT branch): collect
the direct children tagged `udf:field`, in document order. -/
def udfUpdateElems (root : Element) : List Nat := tagIdxs root.children udfFieldTag

/-- Embedding of `UdfDictionary._parse_element`: look up the `type`
attribute (KeyError when absent), decode the text by type — a falsy text
is `None`, numerics via `int()` (the `float()` fallback carries its
string form), booleans by comparison with `"true"`, dates via their ISO
string — then `dict.__setitem__` under the `name` attribute (KeyError
when absent). -/
def udfParseElement (entries : List (String × PyVal)) (e : Element) :
    Except PyErr (List (String × PyVal)) :=
  match alistGet e.attrib "type" with
  | none => .error .keyError
  | some ty =>
      let value : PyVal :=
        match e.text with
        | none => .none
        | some s =>
            if s = "" then .none
            else if pyLower ty = "numeric" then
              match pyIntParse s with
              | some n => .int n
              | none => .float s
            else if pyLower ty = "boolean" then .bool (s = "true")
            else if pyLower ty = "date" then .date s
            else .str s
      match alistGet e.attrib "name" with
      | none => .error .keyError
      | some nm => .ok (alistSet entries nm value)

/-- Embedding of `XmlDictionary._prepare_lookup`: parse every cached
element into the dict, stopping at the first uncaught exception. -/
def udfPrepareLookup (root : Element) (elems : List Nat)
    (entries : List (String × PyVal)) : PyResult (List (String × PyVal)) :=
  match elems with
  | [] => ⟨none, entries⟩
  | i :: rest =>
      match udfParseElement entries (root.children.getD i default) with
      | .error e => ⟨some e, entries⟩
      | .ok entries2 => udfPrepareLookup root rest entries2

/-- Embedding of `UdfDictionary.__init__` (through
`XmlDictionary.__init__`) at `nesting=None, udt=False`: empty dict, then
`_update_elems`, then `_prepare_lookup`. -/
def udfInit (root : Element) : PyResult UdfState :=
  let elems := udfUpdateElems root
  let r := udfPrepareLookup root elems []
  ⟨r.err, ⟨root, r.state, elems, .off⟩⟩

/-- The `for node in self._elems` scan of `_setitem`/`_delitem`: first
cached element whose `name` attribute equals the key; a cached element
without a `name` attribute raises KeyError. -/
def udfScanByName (root : Element) (elems : List Nat) (key : String) :
    Except PyErr (Option Nat) :=
  match elems with
  | [] => .ok none
  | i :: rest =>
      match alistGet (root.children.getD i default).attrib "name" with
      | none => .error .keyError
      | some nm => if nm = key then .ok (some i) else udfScanByName root rest key

/-- Value conversion of `UdfDictionary._setitem` for an existing field of
recorded (lowercased) type `vtype`: the per-type isinstance checks, with
Python quirks preserved — `None` skips the checks and is written as
`str(None).encode()`, i.e. the text `"None"` (the bytes/str distinction is
not modeled); a `bool` passes the numeric `isinstance(value, (int, float))`
check and is written `str(True)`/`str(False)`; an unknown recorded type
executes `raise NotImplemented(...)`, which calls the non-callable
`NotImplemented` singleton and so raises `TypeError`. -/
def udfExistingText (vtype : String) (v : PyVal) : Except PyErr String :=
  match v with
  | .none => .ok "None"
  | _ =>
      if vtype = "string" ∨ vtype = "str" ∨ vtype = "text" then
        match v with
        | .str s => .ok s
        | _ => .error .typeError
      else if vtype = "numeric" then
        match v with
        | .int n => .ok (pyStrOfInt n)
        | .float r => .ok r
        | .bool b => .ok (cond b "True" "False")
        | _ => .error .typeError
      else if vtype = "boolean" then
        match v with
        | .bool b => .ok (cond b "true" "false")
        | _ => .error .typeError
      else if vtype = "date" then
        match v with
        | .date iso => .ok iso
        | _ => .error .typeError
      else if vtype = "uri" then
        match v with
        | .str s => .ok s
        | _ => .error .typeError
      else .error .typeError

/-- Type inference of `_setitem` for a brand-new key: strings become
`Text` when they contain a newline and `String` otherwise, bools become
`Boolean` with text `true`/`false`, ints and floats become `Numeric`
stringified, dates become `Date`; any other shape (including `None`)
raises `NotImplementedError`. -/
def udfNewField (v : PyVal) : Except PyErr (String × String) :=
  match v with
  | .str s => .ok (if String.contains s '\n' then "Text" else "String", s)
  | .bool b => .ok ("Boolean", cond b "true" "false")
  | .int n => .ok ("Numeric", pyStrOfInt n)
  | .float r => .ok ("Numeric", r)
  | .date iso => .ok ("Date", iso)
  | .none => .error .notImplementedError

/-- In-place text mutation of the child at index `i` (`node.text = value`). -/
def setChildText (root : Element) (i : Nat) (s : String) : Element :=
  match root with
  | .mk t a x cs => .mk t a x (cs.set i (setText (cs.getD i default) s))

/-- Append a child element to the root (`root.append(node)` /
`ElementTree.SubElement`). -/
def appendChild (root : Element) (c : Element) : Element :=
  match root with
  | .mk t a x cs => .mk t a x (cs ++ [c])

/-- Embedding of `XmlDictionary.__setitem__` for a non-UDT
`UdfDictionary`: `dict.__setitem__` runs first and stays visible even when
`_setitem` then raises; `_setitem` either mutates the matching element's
text in place (type-checked against its recorded `type` attribute) or
appends a brand-new `udf:field` element (attributes `type`, `name`) and
rescans via `_update_elems` + `_prepare_lookup`. -/
def udfSetitem (s : UdfState) (key : String) (v : PyVal) : PyResult UdfState :=
  let s1 : UdfState := { s with entries := alistSet s.entries key v }
  match udfScanByName s1.root s1.elems key with
  | .error e => ⟨some e, s1⟩
  | .ok (some i) =>
      match alistGet (s1.root.children.getD i default).attrib "type" with
      | none => ⟨some .keyError, s1⟩
      | some ty =>
          match udfExistingText (pyLower ty) v with
          | .error e => ⟨some e, s1⟩
          | .ok txt => ⟨none, { s1 with root := setChildText s1.root i txt }⟩
  | .ok none =>
      match udfNewField v with
      | .error e => ⟨some e, s1⟩
      | .ok vt =>
          let root2 := appendChild s1.root
            (Element.mk udfFieldTag [("type", vt.fst), ("name", key)] (some vt.snd) [])
          let elems2 := udfUpdateElems root2
          let r := udfPrepareLookup root2 elems2 s1.entries
          ⟨r.err, ⟨root2, r.state, elems2, s1.udt⟩⟩

/-- Embedding of `XmlDictionary.__delitem__`: `dict.__delitem__` raises
KeyError on an absent key with nothing mutated; on a present key it
removes the dict entry and then evaluates `self._del_item(key)` — an
attribute that exists neither on `XmlDictionary` nor on its bases nor on
`UdfDictionary` (the implemented hook is named `_delitem`), so the lookup
raises `AttributeError` with the key already gone from the dict and the
XML untouched; the element-removal loop after that call is unreachable. -/
def udfDelitem (s : UdfState) (key : String) : PyResult UdfState :=
  match alistGet s.entries key with
  | none => ⟨some .keyError, s⟩
  | some _ => ⟨some .attributeError, { s with entries := alistDel s.entries key }⟩

/-- Embedding of `UdfDictionary.get_udt`: `None` only when `_udt` is
literally `True`; otherwise `_udt` itself is returned — in particular a
dictionary declared without UDT support returns the Python value
`False`. -/
def udfGetUdt : UdtFlag → PyVal
  | .on => .none
  | .off => .bool false
  | .name s => .str s

/-- Embedding of `UdfDictionary.set_udt`: the `isinstance(name, str)`
assertion holds by typing; a falsy `_udt` raises `AttributeError`;
otherwise the name is recorded and stamped onto the `udf:type` wrapper
element (`assert elem is not None` fails when the wrapper is absent). -/
def udfSetUdt (s : UdfState) (nm : String) : PyResult UdfState :=
  if udtTruthy s.udt = false then ⟨some .attributeError, s⟩
  else
    let s1 : UdfState := { s with udt := .name nm }
    match findTagIdx s1.root.children udfTypeTag with
    | none => ⟨some .assertionError, s1⟩
    | some i =>
        let w := s1.root.children.getD i default
        let w2 := Element.mk w.tag (alistSet w.attrib "name" nm) w.text w.children
        ⟨none, { s1 with root :=
          match s1.root with
          | .mk t a x cs => .mk t a x (cs.set i w2) }⟩

/-- The `name` attributes of the backing `udf:field` elements, one entry
per element, in document order. -/
def fieldNames (cs : List Element) : List (Option String) :=
  match cs with
  | [] => []
  | c :: rest =>
      if c.tag = udfFieldTag then alistGet c.attrib "name" :: fieldNames rest
      else fieldNames rest

/-- Number of backing `udf:field` elements. -/
def fieldCount (root : Element) : Nat := (fieldNames root.children).length

/-- The dictionary projection invariant claimed by the spec: as many
backing elements as dict keys, with pairwise distinct `name` attributes. -/
def udfInvariant (s : UdfState) : Prop :=
  fieldCount s.root = s.entries.length ∧ (fieldNames s.root.children).Nodup

/-- Concrete fixture: a document with a single String field
`test="stuff"` (the unit-test fixture shape). -/
def udfDoc1 : Element :=
  Element.mk "test-entry" [] none
    [Element.mk udfFieldTag [("type", "String"), ("name", "test")] (some "stuff") []]

/-- The dictionary projection constructed over `udfDoc1`. -/
def udfState1 : UdfState := (udfInit udfDoc1).state

/-! ## List projections (`XmlList` / `TagXmlList` / `AttributeList`) -/

/-- State of a list projection (`TagXmlList`, instantiated at
`AttributeList` with `nesting=None`): the live document root, the backing
tag, the Python-list contents (attribute dictionaries), and the cached
indices of the backing same-tag elements. -/
structure AttrListState where
  root : Element
  tag : String
  items : List (List (String × String))
  elems : List Nat

/-- Embedding of `TagXmlList._update_elems`: indices of the same-tag
children, in document order. -/
def attrListUpdateElems (root : Element) (t : String) : List Nat := tagIdxs root.children t

/-- Embedding of `XmlList.__init__` at `AttributeList`: empty list, then
`_update_elems`, then `_prepare_list` appending `dict(element.attrib)`
for every cached element. -/
def attrListInit (root : Element) (t : String) : AttrListState :=
  let elems := attrListUpdateElems root t
  { root := root, tag := t,
    items := elems.map (fun i => (root.children.getD i default).attrib),
    elems := elems }

/-- Embedding of `XmlList.clear`: its first statement is
`dict.clear(self)` — the unbound `dict.clear` applied to an instance of a
`list` subclass — which raises `TypeError` immediately, before any backing
element is removed or the Python list is emptied. -/
def attrListClear (s : AttrListState) : PyResult AttrListState :=
  ⟨some .typeError, s⟩

/-- Embedding of `XmlList.append` at `AttributeList`: `_additem` builds a
new element from the dict and appends it under the backing root, then
`_update_elems` rescans, then `list.append`. -/
def attrListAppend (s : AttrListState) (item : List (String × String)) : AttrListState :=
  let root2 := appendChild s.root (Element.mk s.tag item none [])
  { root := root2, tag := s.tag,
    items := s.items ++ [item],
    elems := attrListUpdateElems root2 s.tag }

/-- Embedding of `XmlList.insert` at `AttributeList`: `_insertitem` builds
a new element and inserts it at position `i` among all children of the
backing root, then rescans, then `list.insert`. -/
def attrListInsert (s : AttrListState) (i : Nat) (item : List (String × String)) :
    AttrListState :=
  let root2 :=
    match s.root with
    | .mk t a x cs => Element.mk t a x (pyInsert cs i (Element.mk s.tag item none []))
  { root := root2, tag := s.tag,
    items := pyInsert s.items i item,
    elems := attrListUpdateElems root2 s.tag }

/-- Concrete fixture for the list projection: one backing element. -/
def attrDoc : Element :=
  Element.mk "test-entry" [] none
    [Element.mk "next-action" [("artifact-uri", "http://x/api/v2/artifacts/a1")] none []]

/-- The list projection constructed over `attrDoc`. -/
def attrList1 : AttrListState := attrListInit attrDoc "next-action"

/-! ## Entity identity and lifecycle (`entities.py`) -/

/-- One Python `Entity` object: whether `__init__` has completed on it
(the `lims` attribute exists), its `_uri`, and its document root. -/
structure EntityObj where
  hasLims : Bool
  uri : Option String
  root : Option Element

instance : Inhabited EntityObj := ⟨⟨false, none, none⟩⟩

/-- The `Lims` collaborator state: the process-wide identity cache
(URI → object), an object heap standing in for Python references (an
object is its heap index; referential identity is index equality), the
transport GET behavior, the `get_uri` id-to-URI resolution, and a counter
of transport GET calls. -/
structure Lims where
  cache : List (String × Nat)
  heap : List EntityObj
  fetch : Option String → Element
  getUriFn : String → String
  fetchCount : Nat

def heapGet (s : Lims) (i : Nat) : EntityObj := s.heap.getD i default

def heapSet (s : Lims) (i : Nat) (o : EntityObj) : Lims :=
  { s with heap := s.heap.set i o }

/-- URI resolution in `__new__`/`__init__`: an explicit URI wins, else an
id goes through `lims.get_uri`, else `ValueError`. -/
def resolveUri (s : Lims) (uri : Option String) (idv : Option String) :
    Except PyErr String :=
  match uri with
  | some u => .ok u
  | none =>
      match idv with
      | some v => .ok (s.getUriFn v)
      | none => .error .valueError

/-- Embedding of `Entity.__new__` plus `Entity.__init__` for a
construction with a resolved URI (`_create_new=False`): `__new__` returns
the cached object when the URI is in the cache, else a fresh allocation;
`__init__` returns immediately when the object already has its `lims`
attribute, otherwise registers it in the cache and initializes it.
Returns the constructed object (heap index). -/
def entityConstruct (s : Lims) (u : String) : Lims × Nat :=
  match alistGet s.cache u with
  | some i =>
      if (heapGet s i).hasLims then (s, i)
      else
        ({ s with cache := alistSet s.cache u i,
                  heap := s.heap.set i { hasLims := true, uri := some u, root := none } }, i)
  | none =>
      let i := s.heap.length
      ({ s with heap := s.heap ++ [{ hasLims := true, uri := some u, root := none }],
                cache := alistSet s.cache u i }, i)

/-- Embedding of `Entity.get`: return at once when the root is loaded and
no refresh is forced, otherwise fetch the document through the transport
and install it as the root. -/
def entityGet (s : Lims) (i : Nat) (force : Bool) : Lims :=
  let obj := heapGet s i
  if force = false ∧ obj.root.isSome = true then s
  else
    { s with heap := s.heap.set i { obj with root := some (s.fetch obj.uri) },
             fetchCount := s.fetchCount + 1 }

/-- The freshly allocated instance right after `_create`: initialized
(`lims` set), no URI, root the fresh creation-tag element. -/
def objCreation (tg : String) : EntityObj :=
  { hasLims := true, uri := none, root := some (Element.mk tg [] none []) }

/-- The same instance after `instance.root = lims.post(...)`. -/
def objPosted (resp : Element) : EntityObj :=
  { hasLims := true, uri := none, root := some resp }

/-- The same instance after `instance._uri = instance.root.attrib['uri']`. -/
def objBound (u : String) (resp : Element) : EntityObj :=
  { hasLims := true, uri := some u, root := some resp }

/-- Embedding of `Entity._create` (no keyword attributes) followed by
`Entity.create`: `_create_new=True` bypasses the cache in both `__new__`
and `__init__`, the instance gets a fresh creation-tag root, is POSTed,
and adopts the response document as its root and the response's `uri`
attribute as its `_uri` (KeyError when the response lacks one).  `resp` is
the document the `lims.post` collaborator returns; note that no step
inserts the instance into `lims.cache`. -/
def entityCreate (s : Lims) (creationTag : String) (resp : Element) :
    PyResult (Lims × Nat) :=
  let i := s.heap.length
  let s1 : Lims := { s with heap := s.heap ++ [objCreation creationTag] }
  let s2 : Lims := { s1 with heap := s1.heap.set i (objPosted resp) }
  match alistGet resp.attrib "uri" with
  | none => ⟨some .keyError, (s2, i)⟩
  | some u => ⟨none, ({ s2 with heap := s2.heap.set i (objBound u resp) }, i)⟩

/-- A `Lims` with one already-fetched entity. -/
def limsFetched : Lims :=
  { cache := [("http://x/api/v2/samples/s1", 0)],
    heap := [{ hasLims := true, uri := some "http://x/api/v2/samples/s1",
               root := some (Element.mk "smp:sample" [] none []) }],
    fetch := fun _ => Element.mk "smp:sample" [] none [],
    getUriFn := fun v => "http://x/api/v2/samples/" ++ v,
    fetchCount := 0 }

/-- A `Lims` with one bound but unfetched entity. -/
def limsUnfetched : Lims :=
  { cache := [("http://x/api/v2/samples/s1", 0)],
    heap := [{ hasLims := true, uri := some "http://x/api/v2/samples/s1", root := none }],
    fetch := fun _ => Element.mk "smp:sample" [] none [],
    getUriFn := fun v => "http://x/api/v2/samples/" ++ v,
    fetchCount := 0 }

/-- An empty `Lims`. -/
def limsEmpty : Lims :=
  { cache := [], heap := [],
    fetch := fun _ => Element.mk "smp:sample" [] none [],
    getUriFn := fun v => "http://x/api/v2/samples/" ++ v,
    fetchCount := 0 }

/-- A create-collaborator response carrying the new resource's URI. -/
def respDoc : Element :=
  Element.mk "smp:sample" [("uri", "http://x/api/v2/samples/s1")] none []

/-! ## Input/output maps (`InputOutputMapList`, `Process.all_inputs`) -/

/-- The dictionary `InputOutputMapList.get_dict` assembles for one input
or output node: the whitelisted attributes when present (absent ones are
skipped by the `except KeyError: pass` handlers), the artifact references
by their `uri` attributes (the entity constructions are identity-cache
lookups and do not affect values), and the nested parent-process
reference.  The source's nested loops re-assign the `uri` entries
identically on every whitelist pass, so the net effect is one assignment
each. -/
structure IODict where
  limsid : Option String
  outputType : Option String
  outputGenerationType : Option String
  uri : Option String
  postProcessUri : Option String
  parentProcess : Option String
deriving DecidableEq, Repr

/-- Embedding of `InputOutputMapList.get_dict`: `None` maps to `None`;
a `parent-process` child without a `uri` attribute raises KeyError
(`node.attrib['uri']` is unguarded). -/
def getDict (node : Option Element) : Except PyErr (Option IODict) :=
  match node with
  | none => .ok none
  | some e =>
      let base : IODict :=
        { limsid := alistGet e.attrib "limsid",
          outputType := alistGet e.attrib "output-type",
          outputGenerationType := alistGet e.attrib "output-generation-type",
          uri := alistGet e.attrib "uri",
          postProcessUri := alistGet e.attrib "post-process-uri",
          parentProcess := none }
      match findTag e.children "parent-process" with
      | none => .ok (some base)
      | some p =>
          match alistGet p.attrib "uri" with
          | none => .error .keyError
          | some pu => .ok (some { base with parentProcess := some pu })

/-- All children carrying a tag, in document order (`get_sub_nodes`). -/
def childrenOfTag (cs : List Element) (t : String) : List Element :=
  match cs with
  | [] => []
  | c :: rest => if c.tag = t then c :: childrenOfTag rest t else childrenOfTag rest t

def ioMapsAux : List Element → Except PyErr (List (Option IODict × Option IODict))
  | [] => .ok []
  | n :: rest =>
      match getDict (findTag n.children "input") with
      | .error e => .error e
      | .ok inp =>
          match getDict (findTag n.children "output") with
          | .error e => .error e
          | .ok outp =>
              match ioMapsAux rest with
              | .error e => .error e
              | .ok l => .ok ((inp, outp) :: l)

/-- Embedding of `InputOutputMapList.__get__` (nesting `None`): one
(input, output) pair of optional dictionaries per `input-output-map`
child, in document order. -/
def inputOutputMaps (root : Element) : Except PyErr (List (Option IODict × Option IODict)) :=
  ioMapsAux (childrenOfTag root.children "input-output-map")

/-- The comprehension `[io[0]['limsid'] for io in self.input_output_maps]`
of `Process.all_inputs`: subscripting `None` raises `TypeError`, and a
dict lacking the key raises `KeyError`, at the first offending entry. -/
def extractInputLimsids :
    List (Option IODict × Option IODict) → Except PyErr (List String)
  | [] => .ok []
  | (none, _) :: _ => .error .typeError
  | (some d, _) :: rest =>
      match d.limsid with
      | none => .error .keyError
      | some v =>
          match extractInputLimsids rest with
          | .error e => .error e
          | .ok l => .ok (v :: l)

def dedupFirstAux : List String → List String → List String
  | [], _ => []
  | x :: rest, seen =>
      if x ∈ seen then dedupFirstAux rest seen else x :: dedupFirstAux rest (x :: seen)

/-- Model of `list(frozenset(ids))`: the set order is unspecified, so it
is embedded as first-occurrence deduplication. -/
def dedupFirst (l : List String) : List String := dedupFirstAux l []

/-- Embedding of `Process.all_inputs` down to the collected ids (the
subsequent `Artifact` constructions only wrap the ids and never alter the
error behavior; the `if id is not None` filter is vacuous on strings).
The `except TypeError` handler logs the error and re-raises `TypeError`;
every other exception propagates unchanged. -/
def allInputs (root : Element) (unique : Bool) : Except PyErr (List String) :=
  let r : Except PyErr (List String) :=
    match inputOutputMaps root with
    | .error e => .error e
    | .ok maps => extractInputLimsids maps
  match r with
  | .error e => .error e
  | .ok ids => .ok (if unique then dedupFirst ids else ids)

/-- A process document whose input/output mapping structure is entirely
absent (no `input-output-map` children). -/
def procEmptyDoc : Element :=
  Element.mk "prc:process" [] none [Element.mk "type" [] (some "X") []]

/-- A process document with one malformed entry: an `input-output-map`
with an `<output>` but no `<input>` child. -/
def procBadDoc : Element :=
  Element.mk "prc:process" [] none
    [Element.mk "input-output-map" [] none
      [Element.mk "output"
        [("limsid", "2"), ("output-generation-type", "PerAllInputs"),
         ("output-type", "ResultFile"), ("uri", "http://x/api/v2/artifacts/2")] none []]]

/-- The output-side dictionary that `get_dict` builds for `procBadDoc`. -/
def ioOutBad : IODict :=
  { limsid := some "2", outputType := some "ResultFile",
    outputGenerationType := some "PerAllInputs",
    uri := some "http://x/api/v2/artifacts/2",
    postProcessUri := none, parentProcess := none }

/-! ### Decimal round-trip lemmas -/

theorem natDigitsRevAux_eq_digits :
    ∀ fuel n : Nat, n ≤ fuel → natDigitsRevAux fuel n = Nat.digits 10 n := by
  intro fuel
  induction fuel with
  | zero =>
      intro n hn
      interval_cases n
      simp [natDigitsRevAux]
  | succ f ih =>
      intro n hn
      by_cases h0 : n = 0
      · subst h0; simp [natDigitsRevAux]
      · have hpos : 0 < n := Nat.pos_of_ne_zero h0
        have hdiv : n / 10 ≤ f := by
          have := Nat.div_lt_self hpos (by norm_num : 1 < 10)
          omega
        rw [natDigitsRevAux, if_neg h0, ih _ hdiv,
          Nat.digits_def' (by norm_num : 1 < 10) hpos]

theorem natDigitsRev_eq_digits (n : Nat) : natDigitsRev n = Nat.digits 10 n :=
  natDigitsRevAux_eq_digits n n (le_refl n)

theorem digitVal_digitChar (d : Nat) (h : d < 10) : digitVal (digitChar d) = some d := by
  interval_cases d <;> decide

theorem digitChar_ne_dash (d : Nat) (h : d < 10) : digitChar d ≠ '-' := by
  interval_cases d <;> decide

theorem parseNatAux_map_digitChar :
    ∀ (ds : List Nat), (∀ d ∈ ds, d < 10) →
      ∀ acc : Nat, parseNatAux (ds.map digitChar) acc =
        some (ds.foldl (fun a d => 10 * a + d) acc) := by
  intro ds
  induction ds with
  | nil => intro _ acc; simp [parseNatAux]
  | cons d rest ih =>
      intro h acc
      have hd : d < 10 := h d (List.mem_cons_self d rest)
      simp only [List.map_cons, parseNatAux, digitVal_digitChar d hd, List.foldl_cons]
      exact ih (fun x hx => h x (List.mem_cons_of_mem d hx)) (10 * acc + d)

theorem foldl_reverse_ofDigits :
    ∀ (L : List Nat) (acc : Nat),
      L.reverse.foldl (fun a d => 10 * a + d) acc =
        acc * 10 ^ L.length + Nat.ofDigits 10 L := by
  intro L
  induction L with
  | nil => intro acc; simp [Nat.ofDigits]
  | cons d rest ih =>
      intro acc
      simp only [List.reverse_cons, List.foldl_append, List.foldl_cons, List.foldl_nil,
        ih acc, Nat.ofDigits_cons, List.length_cons]
      ring

theorem parseNatDigits_of_ne_nil (cs : List Char) (h : cs ≠ []) :
    parseNatDigits cs = parseNatAux cs 0 := by
  cases cs with
  | nil => exact absurd rfl h
  | cons c rest => rfl

theorem parseNatDigits_print (n : Nat) (h : 0 < n) :
    parseNatDigits ((natDigitsRev n).reverse.map digitChar) = some n := by
  have hdig : natDigitsRev n = Nat.digits 10 n := natDigitsRev_eq_digits n
  have hlt : ∀ d ∈ (natDigitsRev n).reverse, d < 10 := by
    intro d hd
    rw [hdig] at hd
    exact Nat.digits_lt_base (by norm_num) (List.mem_reverse.mp hd)
  have hne : natDigitsRev n ≠ [] := by
    rw [hdig]
    exact Nat.digits_ne_nil_iff_ne_zero.mpr (Nat.pos_iff_ne_zero.mp h)
  have hne2 : (natDigitsRev n).reverse.map digitChar ≠ [] := by
    simp [hne]
  rw [parseNatDigits_of_ne_nil _ hne2, parseNatAux_map_digitChar _ hlt 0,
    foldl_reverse_ofDigits]
  simp [hdig, Nat.ofDigits_digits]

theorem data_pyStrOfNat_pos (n : Nat) (h : 0 < n) :
    (pyStrOfNat n).data = (natDigitsRev n).reverse.map digitChar := by
  rw [pyStrOfNat, if_neg (Nat.pos_iff_ne_zero.mp h)]

theorem pyIntParse_pyStrOfNat (n : Nat) : pyIntParse (pyStrOfNat n) = some (n : Int) := by
  by_cases h0 : n = 0
  · subst h0; decide
  · have hpos : 0 < n := Nat.pos_of_ne_zero h0
    have hne : natDigitsRev n ≠ [] := by
      rw [natDigitsRev_eq_digits]
      exact Nat.digits_ne_nil_iff_ne_zero.mpr h0
    rcases hrev : (natDigitsRev n).reverse with _ | ⟨d, rest⟩
    · exact absurd (List.reverse_eq_nil_iff.mp hrev) hne
    · have hd10 : d < 10 := by
        have hmem : d ∈ (natDigitsRev n).reverse := by
          rw [hrev]; exact List.mem_cons_self d rest
        rw [natDigitsRev_eq_digits] at hmem
        exact Nat.digits_lt_base (by norm_num) (List.mem_reverse.mp hmem)
      have hnd : digitChar d ≠ '-' := digitChar_ne_dash d hd10
      have hdata : (pyStrOfNat n).data = digitChar d :: rest.map digitChar := by
        rw [data_pyStrOfNat_pos n hpos, hrev, List.map_cons]
      have hparse : parseNatDigits (digitChar d :: rest.map digitChar) = some n := by
        have h2 := parseNatDigits_print n hpos
        rwa [hrev, List.map_cons] at h2
      simp [pyIntParse, hdata, hnd, hparse]

theorem pyIntParse_pyStrOfInt (i : Int) : pyIntParse (pyStrOfInt i) = some i := by
  by_cases hneg : i < 0
  · have habs : 0 < i.natAbs := by omega
    have hdata : ("-" ++ pyStrOfNat i.natAbs).data = '-' :: (pyStrOfNat i.natAbs).data := by
      simp [String.data_append]
    have hparse : parseNatDigits (pyStrOfNat i.natAbs).data = some i.natAbs := by
      rw [data_pyStrOfNat_pos _ habs]
      exact parseNatDigits_print _ habs
    rw [pyStrOfInt, if_pos hneg]
    have hval : -((i.natAbs : Int)) = i := by omega
    simp only [pyIntParse, hdata]
    simp [hparse, hval]
    rw [abs_of_neg hneg, neg_neg]
  · rw [pyStrOfInt, if_neg hneg, pyIntParse_pyStrOfNat]
    congr 1
    omega

/-! ### List helper lemmas -/

theorem getD_set_self {α : Type} [Inhabited α] :
    ∀ (l : List α) (i : Nat) (x : α), i < l.length → (l.set i x).getD i default = x := by
  intro l
  induction l with
  | nil => intro i x h; simp at h
  | cons a t ih =>
      intro i x h
      cases i with
      | zero => rfl
      | succ j =>
          simp only [List.set_cons_succ, List.getD, List.getElem?_cons_succ]
          have := ih j x (by simpa using h)
          simpa [List.getD] using this

theorem set_ne_of_ne {α : Type} [Inhabited α] :
    ∀ (l : List α) (i : Nat) (x : α), i < l.length → x ≠ l.getD i default →
      l.set i x ≠ l := by
  intro l
  induction l with
  | nil => intro i x h; simp at h
  | cons a t ih =>
      intro i x h hx heq
      cases i with
      | zero =>
          exact hx (by simpa [List.getD] using congrArg (fun u => u.headD x) heq)
      | succ j =>
          have hj : j < t.length := by simp only [List.length_cons] at h; omega
          have hx2 : x ≠ t.getD j default := by simpa [List.getD] using hx
          exact ih j x hj hx2 (by simpa using heq)

theorem getD_append_length {α : Type} [Inhabited α] :
    ∀ (l : List α) (x : α), (l ++ [x]).getD l.length default = x := by
  intro l
  induction l with
  | nil => intro x; rfl
  | cons a t ih =>
      intro x
      have := ih x
      simp only [List.getD] at this ⊢
      simp only [List.cons_append, List.length_cons, List.getElem?_cons_succ]
      exact this

/-! ### findTag / findTagIdx lemmas -/

theorem findTagIdx_bound :
    ∀ (cs : List Element) (t : String) (i : Nat), findTagIdx cs t = some i →
      i < cs.length ∧ (cs.getD i default).tag = t := by
  intro cs
  induction cs with
  | nil => intro t i h; simp [findTagIdx] at h
  | cons c rest ih =>
      intro t i h
      rw [findTagIdx] at h
      by_cases hc : c.tag = t
      · rw [if_pos hc] at h
        cases h
        exact ⟨Nat.succ_pos _, hc⟩
      · rw [if_neg hc] at h
        rcases Option.map_eq_some'.mp h with ⟨j, hj, hji⟩
        rcases ih t j hj with ⟨hlt, htag⟩
        subst hji
        exact ⟨Nat.succ_lt_succ hlt, htag⟩

theorem findTagIdx_set :
    ∀ (cs : List Element) (t : String) (i : Nat) (x : Element),
      findTagIdx cs t = some i → x.tag = t → findTagIdx (cs.set i x) t = some i := by
  intro cs
  induction cs with
  | nil => intro t i x h _; simp [findTagIdx] at h
  | cons c rest ih =>
      intro t i x h hx
      rw [findTagIdx] at h
      by_cases hc : c.tag = t
      · rw [if_pos hc] at h
        cases h
        simp [findTagIdx, hx]
      · rw [if_neg hc] at h
        rcases Option.map_eq_some'.mp h with ⟨j, hj, hji⟩
        subst hji
        simp only [List.set_cons_succ]
        rw [findTagIdx, if_neg hc, ih t j x hj hx]
        rfl

theorem findTagIdx_append_of_none :
    ∀ (cs : List Element) (t : String) (x : Element),
      findTagIdx cs t = none → x.tag = t →
      findTagIdx (cs ++ [x]) t = some cs.length := by
  intro cs
  induction cs with
  | nil => intro t x _ hx; simp [findTagIdx, hx]
  | cons c rest ih =>
      intro t x h hx
      rw [findTagIdx] at h
      by_cases hc : c.tag = t
      · rw [if_pos hc] at h; cases h
      · rw [if_neg hc] at h
        have hnone : findTagIdx rest t = none := by
          cases hr : findTagIdx rest t with
          | none => rfl
          | some j => rw [hr] at h; simp at h
        simp only [List.cons_append]
        rw [findTagIdx, if_neg hc, ih t x hnone hx]
        rfl

theorem findTag_setTextAtTag :
    ∀ (cs : List Element) (t s : String),
      ∃ e, findTag (setTextAtTag cs t s) t = some e ∧ e.text = some s := by
  intro cs
  induction cs with
  | nil =>
      intro t s
      exact ⟨Element.mk t [] (some s) [], by simp [setTextAtTag, findTag, Element.tag], rfl⟩
  | cons c rest ih =>
      intro t s
      by_cases hc : c.tag = t
      · refine ⟨setText c s, ?_, ?_⟩
        · have htag : (setText c s).tag = t := by cases c; simpa [setText, Element.tag] using hc
          simp [setTextAtTag, hc, findTag, htag]
        · cases c; rfl
      · rcases ih t s with ⟨e, hfind, htext⟩
        exact ⟨e, by simp [setTextAtTag, hc, findTag, hfind], htext⟩

/-! ### Nesting resolution lemmas -/

theorem children_mk (t : String) (a : List (String × String)) (x : Option String)
    (c : List Element) : (Element.mk t a x c).children = c := rfl

theorem tag_mk (t : String) (a : List (String × String)) (x : Option String)
    (c : List Element) : (Element.mk t a x c).tag = t := rfl

theorem rootnodeResolve_tag :
    ∀ (ks : List String) (e : Element), (rootnodeResolve e ks).fst.tag = e.tag := by
  intro ks
  induction ks with
  | nil => intro e; rfl
  | cons k rest ih =>
      intro e
      rw [rootnodeResolve]
      cases findTagIdx e.children k with
      | some i => rfl
      | none => rfl

theorem hasChain_resolve :
    ∀ (ks : List String) (e : Element), hasChain (rootnodeResolve e ks).fst ks = true := by
  intro ks
  induction ks with
  | nil => intro e; rfl
  | cons k rest ih =>
      intro e
      rw [rootnodeResolve]
      cases hidx : findTagIdx e.children k with
      | some i =>
          rcases findTagIdx_bound e.children k i hidx with ⟨hlt, htag⟩
          have htag2 : (rootnodeResolve (e.children.getD i default) rest).fst.tag = k := by
            rw [rootnodeResolve_tag, htag]
          rw [hasChain]
          simp only [children_mk, findTagIdx_set e.children k i _ hidx htag2,
            getD_set_self e.children i _ hlt]
          exact ih _
      | none =>
          have htag2 : (rootnodeResolve (Element.mk k [] none []) rest).fst.tag = k := by
            rw [rootnodeResolve_tag]; rfl
          rw [hasChain]
          simp only [children_mk, findTagIdx_append_of_none e.children k _ hidx htag2,
            getD_append_length e.children _]
          exact ih _

theorem rootnodeResolve_mutates :
    ∀ (ks : List String) (e : Element), hasChain e ks = false →
      (rootnodeResolve e ks).fst ≠ e := by
  intro ks
  induction ks with
  | nil => intro e h; simp [hasChain] at h
  | cons k rest ih =>
      intro e h
      rw [rootnodeResolve]
      cases hidx : findTagIdx e.children k with
      | some i =>
          rcases findTagIdx_bound e.children k i hidx with ⟨hlt, htag⟩
          have hsub : hasChain (e.children.getD i default) rest = false := by
            rw [hasChain, hidx] at h
            exact h
          have hne := ih _ hsub
          intro heq
          have hch : (e.children.set i (rootnodeResolve (e.children.getD i default) rest).fst)
              = e.children := by
            cases e
            exact congrArg Element.children heq
          exact set_ne_of_ne e.children i _ hlt (fun hx => hne hx) hch
      | none =>
          intro heq
          have hch : e.children ++ [(rootnodeResolve (Element.mk k [] none []) rest).fst]
              = e.children := by
            cases e
            exact congrArg Element.children heq
          have := congrArg List.length hch
          simp at this

/-! ## Claim C8 -/

/-- C8: for every fetched entity and integer-valued attribute, writing an
integer `n` (or the string `str(n)`) through the descriptor and reading it
back yields `n`, and the backing element's text equals `str(n)`; moreover
any document whose backing text is `str(m)` reads as `m` (in particular
`<count>32</count>` reads `32`, and writing `21` makes the text `"21"`). -/
theorem c8_integer_roundtrip (root : Element) (t : String) (n : Int) (v : PyVal)
    (hv : pyStr v = pyStrOfInt n) :
    integerDescGet (some t) (stringDescSet (some t) root v) = Except.ok (some n)
    ∧ (∃ e, findTag (stringDescSet (some t) root v).children t = some e
        ∧ e.text = some (pyStrOfInt n))
    ∧ (∀ m : Int, stringDescGet (some t) root = some (pyStrOfInt m) →
        integerDescGet (some t) root = Except.ok (some m)) := by
  have hchildren : (stringDescSet (some t) root v).children
      = setTextAtTag root.children t (pyStr v) := by
    cases root; rfl
  rcases findTag_setTextAtTag root.children t (pyStr v) with ⟨e, hfind, htext⟩
  have hget : stringDescGet (some t) (stringDescSet (some t) root v)
      = some (pyStrOfInt n) := by
    simp only [stringDescGet, getNodeOfTag, hchildren, hfind, htext]
    rw [hv]
  refine ⟨?_, ⟨e, by rw [hchildren]; exact hfind, by rw [htext, hv]⟩, ?_⟩
  · simp only [integerDescGet, hget, pyIntParse_pyStrOfInt]
  · intro m hm
    simp only [integerDescGet, hm, pyIntParse_pyStrOfInt]

/-- Witness for C8 at the end-to-end scenario of the spec. -/
theorem c8_integer_roundtrip_witness :
    pyStr (PyVal.int 21) = pyStrOfInt 21
    ∧ (integerDescGet (some "count") (stringDescSet (some "count") c8Doc (PyVal.int 21))
          = Except.ok (some 21)
      ∧ (∃ e, findTag (stringDescSet (some "count") c8Doc (PyVal.int 21)).children "count"
            = some e ∧ e.text = some (pyStrOfInt 21))
      ∧ (∀ m : Int, stringDescGet (some "count") c8Doc = some (pyStrOfInt m) →
          integerDescGet (some "count") c8Doc = Except.ok (some m))) :=
  ⟨rfl, c8_integer_roundtrip c8Doc "count" 21 (PyVal.int 21) rfl⟩

/-! ## Claim C10 -/

/-- C10: a pure read through a descriptor declared with a nesting path, on
a fetched entity whose document lacks some intermediate element of that
path, mutates the document: afterwards the full chain of intermediates
exists (each missing one created and appended in path order), so the
returned document differs from the original. -/
theorem c10_nested_read_mutates (t : String) (ks : List String) (root : Element)
    (h : hasChain root ks = false) :
    (stringListDescGet t ks root).snd ≠ root
    ∧ hasChain (stringListDescGet t ks root).snd ks = true :=
  ⟨rootnodeResolve_mutates ks root h, hasChain_resolve ks root⟩

/-- Witness for C10: a bare `<test-entry/>` read through nesting `["nesting"]`. -/
theorem c10_nested_read_mutates_witness :
    hasChain (Element.mk "test-entry" [] none []) ["nesting"] = false
    ∧ ((stringListDescGet "test-subentry" ["nesting"]
          (Element.mk "test-entry" [] none [])).snd ≠ Element.mk "test-entry" [] none []
      ∧ hasChain (stringListDescGet "test-subentry" ["nesting"]
          (Element.mk "test-entry" [] none [])).snd ["nesting"] = true) :=
  ⟨rfl, c10_nested_read_mutates "test-subentry" ["nesting"] (Element.mk "test-entry" [] none []) rfl⟩

/-! ## Claims C3 and C4 (the `_del_item` slip) -/

/-- C4 (code bug): evaluating the embedded `__delitem__` at the failing
input — deleting the present key `"test"` raises `AttributeError`
(`_del_item` is undefined; the implemented hook is `_delitem`), removing
the key from the mapping while leaving the backing element in the XML
subtree, where the claim requires a silent removal of both; deleting an
absent key raises the key-not-found error with mapping and subtree
unchanged, as the claim states. -/
theorem c4_delete_raises_attributeerror :
    (udfInit udfDoc1).err = none
    ∧ alistGet udfState1.entries "test" = some (PyVal.str "stuff")
    ∧ (udfDelitem udfState1 "test").err = some PyErr.attributeError
    ∧ (udfDelitem udfState1 "test").state.root = udfDoc1
    ∧ (udfDelitem udfState1 "test").state.entries = []
    ∧ (udfDelitem udfState1 "missing").err = some PyErr.keyError
    ∧ (udfDelitem udfState1 "missing").state = udfState1 :=
  ⟨rfl, rfl, rfl, rfl, rfl, rfl, rfl⟩

/-- C3 (code bug): the size-and-distinctness invariant holds for the
dictionary constructed over `udfDoc1`, but is violated immediately after
the delete operation in its sequence — the backing element count stays 1
while the key count drops to 0 — because `__delitem__` mutates the dict
and then raises `AttributeError` without touching the XML (see C4). -/
theorem c3_invariant_broken_by_delete :
    udfInvariant udfState1
    ∧ fieldCount (udfDelitem udfState1 "test").state.root = 1
    ∧ (udfDelitem udfState1 "test").state.entries.length = 0 :=
  ⟨⟨by decide, by decide⟩, by decide, by decide⟩

/-! ## Claim C5 (the `udt` property without UDT support) -/

/-- C5 counterexample: reading the type name of a UDF dictionary declared
without UDT support returns the Python value `False`, not `None` as the
claim states. -/
theorem c5_udt_read_returns_false :
    udfGetUdt UdtFlag.off = PyVal.bool false ∧ udfGetUdt UdtFlag.off ≠ PyVal.none := by
  exact ⟨rfl, by decide⟩

/-- C5 (amended): for a UDF dictionary declared without UDT support,
reading the type name returns the falsy value `False` (not `None`), and
assigning a type name raises `AttributeError` (the unsupported-operation
error of the taxonomy), leaving the dictionary and the document
unchanged. -/
theorem c5_udt_unsupported (s : UdfState) (nm : String) (h : s.udt = UdtFlag.off) :
    udfGetUdt s.udt = PyVal.bool false
    ∧ udfSetUdt s nm = ⟨some PyErr.attributeError, s⟩ := by
  constructor
  · rw [h]
    rfl
  · rw [udfSetUdt, h]
    rfl

/-- Witness for the amended C5 on the concrete non-UDT dictionary. -/
theorem c5_udt_unsupported_witness :
    udfState1.udt = UdtFlag.off
    ∧ (udfGetUdt udfState1.udt = PyVal.bool false
      ∧ udfSetUdt udfState1 "mytype" = ⟨some PyErr.attributeError, udfState1⟩) :=
  ⟨rfl, c5_udt_unsupported udfState1 "mytype" rfl⟩

/-! ## Claim C7 (`XmlList.clear`) -/

/-- C7 (code bug): evaluating the embedded `clear()` at the failing input
— a list projection with one backing element — raises `TypeError`
(`dict.clear` applied to a `list` subclass instance) and removes nothing:
projection and backing subtree are unchanged, where the claim requires
`clear()` to succeed and empty both.  For contrast, the `append` mutator
does perform its XML insert, keeping document order. -/
theorem c7_clear_raises_typeerror :
    (attrListClear attrList1).err = some PyErr.typeError
    ∧ (attrListClear attrList1).state = attrList1
    ∧ attrList1.elems.length = 1
    ∧ attrList1.items.length = 1
    ∧ (attrListAppend attrList1 [("artifact-uri", "http://x/api/v2/artifacts/a2")]).elems.length = 2
    ∧ (attrListAppend attrList1 [("artifact-uri", "http://x/api/v2/artifacts/a2")]).items.length = 2 :=
  ⟨rfl, rfl, by decide, by decide, by decide, by decide⟩

/-! ### Association-list and heap lemmas -/

theorem alistGet_set_self {α : Type} :
    ∀ (l : List (String × α)) (k : String) (v : α),
      alistGet (alistSet l k v) k = some v := by
  intro l
  induction l with
  | nil => intro k v; simp [alistSet, alistGet]
  | cons p t ih =>
      intro k v
      rcases p with ⟨a, b⟩
      by_cases h : a = k
      · simp [alistSet, alistGet, h]
      · simp [alistSet, alistGet, h, ih]

theorem alistSet_idem {α : Type} :
    ∀ (l : List (String × α)) (k : String) (v : α),
      alistSet (alistSet l k v) k v = alistSet l k v := by
  intro l
  induction l with
  | nil => intro k v; simp [alistSet]
  | cons p t ih =>
      intro k v
      rcases p with ⟨a, b⟩
      by_cases h : a = k
      · simp [alistSet, h]
      · simp [alistSet, h, ih]

theorem list_set_oob {α : Type} :
    ∀ (l : List α) (i : Nat) (x : α), l.length ≤ i → l.set i x = l := by
  intro l
  induction l with
  | nil => intro i x _; rfl
  | cons a t ih =>
      intro i x h
      cases i with
      | zero => simp at h
      | succ j => simp only [List.set_cons_succ]; rw [ih j x (by simpa using h)]

theorem list_getD_oob {α : Type} [Inhabited α] :
    ∀ (l : List α) (i : Nat), l.length ≤ i → l.getD i default = default := by
  intro l
  induction l with
  | nil => intro i _; cases i <;> rfl
  | cons a t ih =>
      intro i h
      cases i with
      | zero => simp at h
      | succ j =>
          have := ih j (by simpa using h)
          simpa [List.getD] using this

theorem heapGet_heapSet (s : Lims) (i : Nat) (o : EntityObj) (h : i < s.heap.length) :
    heapGet (heapSet s i o) i = o := by
  simp only [heapGet, heapSet]
  exact getD_set_self s.heap i o h

/-- `get()` is a no-op on a loaded root without a forced refresh. -/
theorem entityGet_noop (s : Lims) (i : Nat) (h : (heapGet s i).root.isSome = true) :
    entityGet s i false = s := by
  simp [entityGet, h]

/-- Stability of `entityConstruct`: a second construction with the same
URI returns the same object and leaves the state untouched. -/
theorem entityConstruct_stable (s : Lims) (u : String) :
    entityConstruct (entityConstruct s u).fst u = entityConstruct s u := by
  rcases h1 : alistGet s.cache u with _ | i
  · -- fresh allocation: the cache now maps u to the new object
    have hr1 : entityConstruct s u =
        ({ s with heap := s.heap ++ [{ hasLims := true, uri := some u, root := none }],
                  cache := alistSet s.cache u s.heap.length }, s.heap.length) := by
      simp [entityConstruct, h1]
    rw [hr1]
    have hobj : heapGet
        { s with heap := s.heap ++ [{ hasLims := true, uri := some u, root := none }],
                 cache := alistSet s.cache u s.heap.length } s.heap.length
        = { hasLims := true, uri := some u, root := none } := by
      simp only [heapGet]
      exact getD_append_length s.heap _
    simp [entityConstruct, alistGet_set_self, hobj]
  · by_cases hL : (heapGet s i).hasLims = true
    · have hr1 : entityConstruct s u = (s, i) := by
        simp [entityConstruct, h1, hL]
      rw [hr1]
      exact hr1
    · have hr1 : entityConstruct s u =
          ({ s with cache := alistSet s.cache u i,
                    heap := s.heap.set i { hasLims := true, uri := some u, root := none } }, i) := by
        simp [entityConstruct, h1, hL]
      rw [hr1]
      by_cases hlen : i < s.heap.length
      · -- in-bounds re-initialization: the object now has its `lims` attribute
        have hobj : heapGet
            { s with cache := alistSet s.cache u i,
                     heap := s.heap.set i { hasLims := true, uri := some u, root := none } } i
            = { hasLims := true, uri := some u, root := none } := by
          simp only [heapGet]
          exact getD_set_self s.heap i _ hlen
        simp [entityConstruct, alistGet_set_self, hobj]
      · -- out-of-bounds cached index (degenerate state): both updates are no-ops
        have hle : s.heap.length ≤ i := Nat.le_of_not_lt hlen
        have hset : s.heap.set i
            ({ hasLims := true, uri := some u, root := none } : EntityObj) = s.heap :=
          list_set_oob s.heap i _ hle
        have hobj : heapGet
            { s with cache := alistSet s.cache u i,
                     heap := s.heap.set i { hasLims := true, uri := some u, root := none } } i
            = default := by
          simp only [heapGet, hset]
          exact list_getD_oob s.heap i hle
        have hLd : (default : EntityObj).hasLims = false := rfl
        simp [entityConstruct, alistGet_set_self, hobj, hLd, alistSet_idem, hset]

theorem entityConstruct_getUriFn (s : Lims) (u : String) :
    (entityConstruct s u).fst.getUriFn = s.getUriFn := by
  rcases h1 : alistGet s.cache u with _ | i
  · simp [entityConstruct, h1]
  · by_cases hL : (heapGet s i).hasLims = true
    · simp [entityConstruct, h1, hL]
    · simp [entityConstruct, h1, hL]

/-! ## Claim C1 -/

/-- C1: constructing an entity twice with the same URI against the same
cache returns the very same object (identical heap index — referential
equality) and leaves the state unchanged; an id resolving to that URI
resolves to the same construction; and a root mutation installed through
the first handle is read back through the second handle. -/
theorem c1_identity_cache (s : Lims) (u : String) (idv : String)
    (hid : s.getUriFn idv = u) :
    (entityConstruct (entityConstruct s u).fst u).snd = (entityConstruct s u).snd
    ∧ (entityConstruct (entityConstruct s u).fst u).fst = (entityConstruct s u).fst
    ∧ resolveUri (entityConstruct s u).fst none (some idv) = Except.ok u
    ∧ (∀ doc : Element, (entityConstruct s u).snd < (entityConstruct s u).fst.heap.length →
        (heapGet (heapSet (entityConstruct s u).fst (entityConstruct s u).snd
            { heapGet (entityConstruct s u).fst (entityConstruct s u).snd with
                root := some doc })
          (entityConstruct (entityConstruct s u).fst u).snd).root = some doc) := by
  have hstable := entityConstruct_stable s u
  refine ⟨congrArg Prod.snd hstable, congrArg Prod.fst hstable, ?_, ?_⟩
  · rw [resolveUri, entityConstruct_getUriFn, hid]
  · intro doc hlen
    rw [congrArg Prod.snd hstable, heapGet_heapSet _ _ _ hlen]

/-- Witness for C1 on an initially empty cache. -/
theorem c1_identity_cache_witness :
    limsEmpty.getUriFn "s1" = "http://x/api/v2/samples/s1"
    ∧ ((entityConstruct (entityConstruct limsEmpty "http://x/api/v2/samples/s1").fst
          "http://x/api/v2/samples/s1").snd
        = (entityConstruct limsEmpty "http://x/api/v2/samples/s1").snd
      ∧ (entityConstruct (entityConstruct limsEmpty "http://x/api/v2/samples/s1").fst
          "http://x/api/v2/samples/s1").fst
        = (entityConstruct limsEmpty "http://x/api/v2/samples/s1").fst
      ∧ resolveUri (entityConstruct limsEmpty "http://x/api/v2/samples/s1").fst
          none (some "s1") = Except.ok "http://x/api/v2/samples/s1"
      ∧ (∀ doc : Element,
          (entityConstruct limsEmpty "http://x/api/v2/samples/s1").snd
            < (entityConstruct limsEmpty "http://x/api/v2/samples/s1").fst.heap.length →
          (heapGet (heapSet (entityConstruct limsEmpty "http://x/api/v2/samples/s1").fst
              (entityConstruct limsEmpty "http://x/api/v2/samples/s1").snd
              { heapGet (entityConstruct limsEmpty "http://x/api/v2/samples/s1").fst
                  (entityConstruct limsEmpty "http://x/api/v2/samples/s1").snd with
                  root := some doc })
            (entityConstruct (entityConstruct limsEmpty "http://x/api/v2/samples/s1").fst
              "http://x/api/v2/samples/s1").snd).root = some doc)) :=
  ⟨rfl, c1_identity_cache limsEmpty "http://x/api/v2/samples/s1" "s1" rfl⟩

/-! ## Claim C2 -/

/-- C2: on an entity whose document root is already loaded, `get()`
without force performs no fetch and changes nothing; on an unfetched
entity, two consecutive `get()` calls leave the state of the first call
unchanged and perform exactly one transport fetch in total. -/
theorem c2_get_idempotent (s : Lims) (i : Nat) :
    ((heapGet s i).root.isSome = true → entityGet s i false = s)
    ∧ (i < s.heap.length → (heapGet s i).root = none →
        entityGet (entityGet s i false) i false = entityGet s i false
        ∧ (entityGet s i false).fetchCount = s.fetchCount + 1) := by
  refine ⟨entityGet_noop s i, ?_⟩
  intro hlen hroot
  have h1 : entityGet s i false =
      { s with
        heap := s.heap.set i ({ heapGet s i with root := some (s.fetch (heapGet s i).uri) }),
        fetchCount := s.fetchCount + 1 } := by
    simp [entityGet, hroot]
  have h2 : (heapGet (entityGet s i false) i).root.isSome = true := by
    rw [h1]
    simp only [heapGet]
    rw [getD_set_self s.heap i _ hlen]
    rfl
  exact ⟨entityGet_noop _ i h2, by rw [h1]⟩

/-- Witness for C2 on one fetched and one unfetched concrete entity. -/
theorem c2_get_idempotent_witness :
    ((heapGet limsFetched 0).root.isSome = true ∧ entityGet limsFetched 0 false = limsFetched)
    ∧ (0 < limsUnfetched.heap.length ∧ (heapGet limsUnfetched 0).root = none
      ∧ entityGet (entityGet limsUnfetched 0 false) 0 false = entityGet limsUnfetched 0 false
      ∧ (entityGet limsUnfetched 0 false).fetchCount = limsUnfetched.fetchCount + 1) := by
  have h2 := (c2_get_idempotent limsUnfetched 0).2 (by decide) rfl
  exact ⟨⟨rfl, (c2_get_idempotent limsFetched 0).1 rfl⟩, ⟨by decide, rfl, h2.1, h2.2⟩⟩

/-! ## Claim C6 -/

/-- C6 counterexample: after a successful `create()` against an empty
cache, the new entity's URI is absent from the identity cache, and a
subsequent construction by that URI yields a different object — against
the claim's clause that the entity is present in the cache and that the
construction returns the same instance. -/
theorem c6_create_not_cached :
    (entityCreate limsEmpty "smp:samplecreation" respDoc).err = none
    ∧ alistGet (entityCreate limsEmpty "smp:samplecreation" respDoc).state.fst.cache
        "http://x/api/v2/samples/s1" = none
    ∧ (entityConstruct (entityCreate limsEmpty "smp:samplecreation" respDoc).state.fst
          "http://x/api/v2/samples/s1").snd
        ≠ (entityCreate limsEmpty "smp:samplecreation" respDoc).state.snd := by
  refine ⟨rfl, rfl, ?_⟩
  decide

/-- C6 (amended): after `create()` succeeds the new entity holds the URI
returned by the create collaborator and its document root is the response
body with no extra GET — but the entity is NOT inserted into the identity
cache: the cache is unchanged, and when that URI was not already cached a
subsequent construction by it returns a different, fresh instance. -/
theorem c6_create_binds_uri_uncached (s : Lims) (tg : String) (resp : Element) (u : String)
    (hu : alistGet resp.attrib "uri" = some u) :
    (entityCreate s tg resp).err = none
    ∧ (heapGet (entityCreate s tg resp).state.fst
        (entityCreate s tg resp).state.snd).uri = some u
    ∧ (heapGet (entityCreate s tg resp).state.fst
        (entityCreate s tg resp).state.snd).root = some resp
    ∧ (entityCreate s tg resp).state.fst.fetchCount = s.fetchCount
    ∧ (entityCreate s tg resp).state.fst.cache = s.cache
    ∧ (alistGet s.cache u = none →
        (entityConstruct (entityCreate s tg resp).state.fst u).snd
          ≠ (entityCreate s tg resp).state.snd) := by
  have hcreate : entityCreate s tg resp =
      ⟨none,
        ({ s with
            heap := ((s.heap ++ [objCreation tg]).set s.heap.length (objPosted resp)).set
              s.heap.length (objBound u resp) },
          s.heap.length)⟩ := by
    simp only [entityCreate, hu]
  have hlen2 : s.heap.length <
      ((s.heap ++ [objCreation tg]).set s.heap.length (objPosted resp)).length := by
    simp
  have hobj2 : (((s.heap ++ [objCreation tg]).set s.heap.length (objPosted resp)).set
        s.heap.length (objBound u resp)).getD s.heap.length default
      = objBound u resp :=
    getD_set_self _ _ _ hlen2
  have hsnd : (entityCreate s tg resp).state.snd = s.heap.length := by rw [hcreate]
  have hget : heapGet (entityCreate s tg resp).state.fst s.heap.length = objBound u resp := by
    rw [hcreate]
    simp only [heapGet]
    exact hobj2
  refine ⟨by rw [hcreate], ?_, ?_, by rw [hcreate], by rw [hcreate], ?_⟩
  · rw [hsnd, hget]
    rfl
  · rw [hsnd, hget]
    rfl
  · intro hc
    have hcache : (entityCreate s tg resp).state.fst.cache = s.cache := by rw [hcreate]
    have hlenS : (entityCreate s tg resp).state.fst.heap.length = s.heap.length + 1 := by
      rw [hcreate]
      simp
    have hc2 : alistGet (entityCreate s tg resp).state.fst.cache u = none := by
      rw [hcache]; exact hc
    have hfresh : (entityConstruct (entityCreate s tg resp).state.fst u).snd
        = (entityCreate s tg resp).state.fst.heap.length := by
      simp [entityConstruct, hc2]
    rw [hfresh, hlenS, hsnd]
    omega

/-- Witness for the amended C6. -/
theorem c6_create_binds_uri_uncached_witness :
    alistGet respDoc.attrib "uri" = some "http://x/api/v2/samples/s1"
    ∧ ((entityCreate limsEmpty "smp:samplecreation" respDoc).err = none
      ∧ (heapGet (entityCreate limsEmpty "smp:samplecreation" respDoc).state.fst
          (entityCreate limsEmpty "smp:samplecreation" respDoc).state.snd).uri
          = some "http://x/api/v2/samples/s1"
      ∧ (heapGet (entityCreate limsEmpty "smp:samplecreation" respDoc).state.fst
          (entityCreate limsEmpty "smp:samplecreation" respDoc).state.snd).root = some respDoc
      ∧ (entityCreate limsEmpty "smp:samplecreation" respDoc).state.fst.fetchCount
          = limsEmpty.fetchCount
      ∧ (entityCreate limsEmpty "smp:samplecreation" respDoc).state.fst.cache = limsEmpty.cache
      ∧ (alistGet limsEmpty.cache "http://x/api/v2/samples/s1" = none →
          (entityConstruct (entityCreate limsEmpty "smp:samplecreation" respDoc).state.fst
            "http://x/api/v2/samples/s1").snd
            ≠ (entityCreate limsEmpty "smp:samplecreation" respDoc).state.snd)) :=
  ⟨rfl, c6_create_binds_uri_uncached limsEmpty "smp:samplecreation" respDoc
    "http://x/api/v2/samples/s1" rfl⟩

/-! ## Claim C9 -/

theorem extractInputLimsids_typeError :
    ∀ (maps : List (Option IODict × Option IODict)),
      (∀ io ∈ maps, ∀ d, io.fst = some d → d.limsid.isSome = true) →
      (∃ io ∈ maps, io.fst = none) →
      extractInputLimsids maps = Except.error PyErr.typeError := by
  intro maps
  induction maps with
  | nil =>
      intro _ hex
      rcases hex with ⟨io, hm, _⟩
      simp at hm
  | cons p rest ih =>
      intro hall hex
      rcases p with ⟨pi, po⟩
      cases pi with
      | none => rfl
      | some d =>
          have hd : d.limsid.isSome = true :=
            hall (some d, po) (List.mem_cons_self _ _) d rfl
          rcases ho : d.limsid with _ | v
          · rw [ho] at hd; simp at hd
          · have hex2 : ∃ io ∈ rest, io.fst = none := by
              rcases hex with ⟨io, hm, hio⟩
              rcases List.mem_cons.mp hm with h | h
              · rw [h] at hio; simp at hio
              · exact ⟨io, h, hio⟩
            have hrec := ih
              (fun io hm d2 hd2 => hall io (List.mem_cons_of_mem _ hm) d2 hd2) hex2
            simp [extractInputLimsids, ho, hrec]

theorem extractInputLimsids_ok :
    ∀ (maps : List (Option IODict × Option IODict)),
      (∀ io ∈ maps, ∃ d, io.fst = some d ∧ d.limsid.isSome = true) →
      ∃ l, extractInputLimsids maps = Except.ok l := by
  intro maps
  induction maps with
  | nil => intro _; exact ⟨[], rfl⟩
  | cons p rest ih =>
      intro hall
      rcases hall p (List.mem_cons_self _ _) with ⟨d, hd1, hd2⟩
      rcases p with ⟨pi, po⟩
      simp only at hd1
      subst hd1
      rcases ho : d.limsid with _ | v
      · rw [ho] at hd2; simp at hd2
      · rcases ih (fun io hm => hall io (List.mem_cons_of_mem _ hm)) with ⟨l, hl⟩
        exact ⟨v :: l, by simp [extractInputLimsids, ho, hl]⟩

/-- C9 counterexample: a process whose input/output mapping structure is
entirely absent (no `input-output-map` elements) does not raise at all —
retrieving all input artifacts returns the empty list, where the claim
requires an error for the absent case. -/
theorem c9_absent_structure_returns_empty :
    allInputs procEmptyDoc true = Except.ok [] := rfl

/-- C9 (amended): an `input-output-map` entry with no input dictionary
makes the all-inputs retrieval raise the logged `TypeError` rather than
return an empty list (given the present input dictionaries are
well-formed); a mapping whose entries all carry an input dictionary with
a `limsid` never triggers this error path; and a process with no entries
at all returns the empty list without error. -/
theorem c9_missing_input_raises (root : Element) (uq : Bool)
    (maps : List (Option IODict × Option IODict))
    (hmaps : inputOutputMaps root = Except.ok maps) :
    ((∀ io ∈ maps, ∀ d, io.fst = some d → d.limsid.isSome = true) →
      (∃ io ∈ maps, io.fst = none) →
      allInputs root uq = Except.error PyErr.typeError)
    ∧ ((∀ io ∈ maps, ∃ d, io.fst = some d ∧ d.limsid.isSome = true) →
      ∃ ids, allInputs root uq = Except.ok ids)
    ∧ (maps = [] → allInputs root uq = Except.ok []) := by
  refine ⟨?_, ?_, ?_⟩
  · intro hall hex
    have h := extractInputLimsids_typeError maps hall hex
    simp [allInputs, hmaps, h]
  · intro hall
    rcases extractInputLimsids_ok maps hall with ⟨l, hl⟩
    exact ⟨if uq then dedupFirst l else l, by simp [allInputs, hmaps, hl]⟩
  · intro hm
    subst hm
    simp [allInputs, hmaps, extractInputLimsids, dedupFirst, dedupFirstAux, ite_self]

/-- Witness for the amended C9 on a concrete malformed process document. -/
theorem c9_missing_input_raises_witness :
    inputOutputMaps procBadDoc = Except.ok [(none, some ioOutBad)]
    ∧ allInputs procBadDoc true = Except.error PyErr.typeError := by
  refine ⟨rfl, ?_⟩
  exact (c9_missing_input_raises procBadDoc true [(none, some ioOutBad)] rfl).1
    (fun io hm d hd => by rw [List.mem_singleton.mp hm] at hd; simp at hd)
    ⟨(none, some ioOutBad), List.mem_singleton_self _, rfl⟩
